import Mathlib

/-!
Verification of the FrontendRAFT build-and-publish pipeline
(`scripts/build-and-publish.py`).

The development shallowly embeds the core of the script:
* substring-based heuristic security checks (`test_sql_injection_protection`,
  `test_jwt_security`),
* the source-inventory check (`validate_source_files`),
* the CDN bundle assembler (`create_cdn_bundle`),
* the pipeline runner and exit-code logic of `main`.

Python's `needle in content` substring test is embedded as `containsStr`,
file-system state as explicit lists/functions, and a step's Python-level
behaviour (returning a bool or raising) as the `Outcome` type.
-/

/-- `leadsWith needle hay` is true when `hay` starts with `needle`
(character-list version of string prefixing). -/
def leadsWith : List Char → List Char → Bool
  | [], _ => true
  | _ :: _, [] => false
  | a :: as, b :: bs => a == b && leadsWith as bs

/-- `containsSub needle hay`: `needle` occurs contiguously inside `hay`.
This embeds Python's `needle in hay` substring test on the underlying
character lists. -/
def containsSub (needle : List Char) : List Char → Bool
  | [] => needle.isEmpty
  | c :: cs => leadsWith needle (c :: cs) || containsSub needle cs

/-- Python's `needle in content` on strings. -/
def containsStr (needle hay : String) : Bool :=
  containsSub needle.data hay.data

/-- `trailsWith suf s`: `s` ends with `suf` (string-suffix test), used to
embed the `rglob` pattern match against file names. -/
def trailsWith (suf s : String) : Bool :=
  leadsWith suf.data.reverse s.data.reverse

/-- Whitespace as matched by the regex class `\s`. -/
def isSpaceChar (c : Char) : Bool :=
  c == ' ' || c == '\t' || c == '\n' || c == '\r'

/-- Case-insensitive character comparison (regex flag `re.IGNORECASE`). -/
def chrLowerEq (a b : Char) : Bool := a.toLower == b.toLower

/-- Case-insensitively match a literal pattern at the head of the input,
returning the remaining input on success. -/
def matchCI : List Char → List Char → Option (List Char)
  | [], rest => some rest
  | _ :: _, [] => none
  | p :: ps, c :: cs => if chrLowerEq p c then matchCI ps cs else none

/-- A single- or double-quote character (regex class `["']`). -/
def isQuote (c : Char) : Bool := c == '"' || c.toNat == 39

/-- Match the hardcoded-secret regex `secret\s*=\s*["'][^"']+["']`
(case-insensitive) at the head of a character list. -/
def secretPatAt (cs : List Char) : Bool :=
  match matchCI "secret".data cs with
  | none => false
  | some r1 =>
    match r1.dropWhile isSpaceChar with
    | '=' :: r3 =>
      match r3.dropWhile isSpaceChar with
      | q :: r5 =>
        if isQuote q then
          let body := r5.takeWhile (fun c => !isQuote c)
          let rest := r5.dropWhile (fun c => !isQuote c)
          !body.isEmpty &&
            (match rest with
             | q2 :: _ => isQuote q2
             | [] => false)
        else false
      | [] => false
    | _ => false

/-- Number of positions in `content` at which the hardcoded-secret pattern
matches; embeds `re.findall(r'secret\s*=\s*["\x27][^"\x27]+["\x27]', content,
re.IGNORECASE)` up to its count being zero or not. -/
def hardcodedSecretCount (content : String) : Nat :=
  content.data.tails.countP secretPatAt

/-- A heuristic check's structured result: the gating verdict plus the
ordered list of logged sub-checks (`log_test` calls). -/
structure CheckReport where
  passed : Bool
  subChecks : List (String × Bool)
deriving Repr, DecidableEq

/-- Embeds `test_sql_injection_protection` from `build-and-publish.py`
(lines 199–225): reads `src/core/QueryEngine.js` as `content`, logs three
sub-checks, and returns `has_where_filter and not has_eval`. -/
def test_sql_injection_protection (content : String) : CheckReport :=
  let has_where_filter := containsStr "_filter" content
  let has_operator_check := containsStr "$eq" content || containsStr "operator" content
  let has_eval := containsStr "eval(" content
  { passed := has_where_filter && !has_eval
    subChecks :=
      [("Safe WHERE clause filtering", has_where_filter),
       ("Query operator validation", has_operator_check),
       ("No eval() usage", !has_eval)] }

/-- Modelled from the spec's words (not the code), for comparison with
`test_sql_injection_protection`: "passes iff the text shows evidence of
filtered/parameterized query construction AND evidence of operator
validation, AND does not contain a dynamic-code-evaluation call". -/
def injectionSpecPass (content : String) : Bool :=
  containsStr "_filter" content &&
    (containsStr "$eq" content || containsStr "operator" content) &&
    !containsStr "eval(" content

/-- Embeds `test_jwt_security` from `build-and-publish.py` (lines 227–256):
reads `src/utils/jwt.js` as `content`, logs four sub-checks, and returns
`has_verify and has_signature_check and has_exp_check`. -/
def test_jwt_security (content : String) : CheckReport :=
  let has_verify := containsStr "verifyJWT" content
  let has_signature_check := containsStr "signature" content && containsStr "!=" content
  let has_exp_check := containsStr "exp" content && containsStr "Date.now()" content
  let potential_hardcoded := hardcodedSecretCount content
  { passed := has_verify && has_signature_check && has_exp_check
    subChecks :=
      [("JWT verification function", has_verify),
       ("Signature validation", has_signature_check),
       ("Token expiration check", has_exp_check),
       ("No hardcoded secrets", potential_hardcoded == 0)] }

/-- Embeds the constant `EXCLUDED_FROM_CDN` (lines 77–80): plugin template
files excluded from the CDN bundle. -/
def EXCLUDED_FROM_CDN : List String :=
  ["src/plugins/react.js",
   "src/plugins/vue.js"]

/-- Embeds the `required_files` manifest inside `validate_source_files`
(lines 126–145). -/
def required_files : List String :=
  ["src/index.js",
   "src/core/FrontendRAFT.js",
   "src/core/CacheLayer.js",
   "src/core/StreamManager.js",
   "src/core/BatchManager.js",
   "src/core/OptimisticEngine.js",
   "src/core/QueryEngine.js",
   "src/core/AuthLayer.js",
   "src/core/Router.js",
   "src/core/StorageLayer.js",
   "src/core/ComputeLayer.js",
   "src/core/P2PLayer.js",
   "src/core/CDNClient.js",
   "src/plugins/react.js",
   "src/plugins/vue.js",
   "src/utils/jwt.js",
   "src/utils/crypto.js",
   "src/utils/validation.js"]

/-- Embeds the manifest loop of `validate_source_files` for an arbitrary
manifest: `missing = [f for f in manifest if not os.path.exists(f)]`; the
step passes iff `missing` is empty, and on failure the missing list is
logged. The file-system state is the predicate `fsExists`. -/
def validateManifest (fsExists : String → Bool) (manifest : List String) :
    Bool × List String :=
  let missing := manifest.filter (fun f => !fsExists f)
  (missing.isEmpty, missing)

/-- Embeds `validate_source_files` (lines 122–159): the manifest check run
on the fixed `required_files` list. -/
def validate_source_files (fsExists : String → Bool) : Bool × List String :=
  validateManifest fsExists required_files

/-- A file of the source tree: its path (as produced by `Path('src').rglob`,
e.g. `src/core/QueryEngine.js`) and its content. Byte size is embedded as
`content.length`. -/
structure SrcFile where
  path : String
  content : String
deriving Repr, DecidableEq

/-- The `rglob('*.js')` pattern: the file's name ends in `.js`. -/
def isJsFile (f : SrcFile) : Bool := trailsWith ".js" f.path

/-- The exclusion test of `create_cdn_bundle` (line 340):
`any(excluded in src_path for excluded in EXCLUDED_FROM_CDN)`. -/
def isExcluded (src_path : String) : Bool :=
  EXCLUDED_FROM_CDN.any (fun excluded => containsStr excluded src_path)

/-- The destination of a copied file (lines 346–347): the path relative to
`src`, re-rooted under `dist` — drop the leading `src/` and re-root. -/
def distPath (src_path : String) : String :=
  "dist/" ++ src_path.drop 4

/-- The bundle-step result: the copied files (`cdn_files` paths under
`dist/` with their verbatim contents), the excluded source paths, the total
size, the over-budget warning flag, and the step's boolean outcome. -/
structure BundleManifest where
  included : List String
  excluded : List String
  copies : List (String × String)
  totalBytes : Nat
  overBudget : Bool
  outcome : Bool
deriving Repr, DecidableEq

/-- Embeds `create_cdn_bundle` (lines 324–369): enumerate
`Path('src').rglob('*.js')`, skip files whose path contains an
`EXCLUDED_FROM_CDN` entry, copy the rest verbatim to the equivalent path
under `dist`, sum the copied files' sizes, warn when the sum exceeds
`100 * 1024`, and return `True`. `files` is the tree under `src`; `included`
records the source paths of the copied files. -/
def create_cdn_bundle (files : List SrcFile) : BundleManifest :=
  let src_files := files.filter isJsFile
  let keep := src_files.filter (fun f => !isExcluded f.path)
  let dropped := src_files.filter (fun f => isExcluded f.path)
  let copies := keep.map (fun f => (distPath f.path, f.content))
  let total_size := (copies.map (fun c => c.2.length)).sum
  { included := keep.map (fun f => f.path)
    excluded := dropped.map (fun f => f.path)
    copies := copies
    totalBytes := total_size
    overBudget := decide (total_size > 100 * 1024)
    outcome := true }

/-- A step's Python-level behaviour in `main`'s loop: either return a
boolean (`ok`), or raise an exception (`exn`). -/
inductive Outcome where
  | ok (b : Bool)
  | exn (msg : String)
deriving Repr, DecidableEq

/-- The boolean `main`'s loop records for an outcome: a raised exception is
recorded as `False`, like a returned `False`. -/
def outcomeBool : Outcome → Bool
  | .ok b => b
  | .exn _ => false

/-- A declared pipeline step: its name and the outcome its action produces
when invoked. -/
abbrev Step := String × Outcome

/-- Embeds `main`'s step loop (lines 550–563): run each step in order,
append `(step_name, result)` to `results`; on a `False` result or an
exception, append and stop (`completed = false`); otherwise continue. The
second component tells whether the loop ran to completion. -/
def runLoop : List Step → List (String × Bool) × Bool
  | [] => ([], true)
  | s :: rest =>
    if outcomeBool s.2 then
      let r := runLoop rest
      ((s.1, true) :: r.1, r.2)
    else ([(s.1, false)], false)

/-- Embeds the summary and return value of `main` (lines 565–591): `main`
returns `True` iff the loop completed and `passed == total` over the
recorded results. -/
def mainSuccess (steps : List Step) : Bool :=
  let r := runLoop steps
  r.2 && (r.1.countP (fun x => x.2) == r.1.length)

/-- Embeds `sys.exit(0 if success else 1)` (line 595). -/
def exitCode (steps : List Step) : Nat :=
  if mainSuccess steps then 0 else 1

/-! ### Helper lemmas -/

theorem validateManifest_pass_iff (fsExists : String → Bool) (manifest : List String) :
    (validateManifest fsExists manifest).1 = true ↔
      ∀ f ∈ manifest, fsExists f = true := by
  simp [validateManifest, List.isEmpty_iff, List.filter_eq_nil_iff]

theorem runLoop_results_characterization (steps : List Step) :
    (runLoop steps).1 =
      (steps.takeWhile (fun s => outcomeBool s.2)).map (fun s => (s.1, true)) ++
      ((steps.dropWhile (fun s => outcomeBool s.2)).take 1).map (fun s => (s.1, false)) := by
  induction steps with
  | nil => simp [runLoop]
  | cons s rest ih =>
    by_cases hb : outcomeBool s.2 = true
    · simp [runLoop, hb, List.takeWhile_cons, List.dropWhile_cons, ih]
    · simp only [Bool.not_eq_true] at hb
      simp [runLoop, hb, List.takeWhile_cons, List.dropWhile_cons]

theorem runLoop_length_le (steps : List Step) :
    (runLoop steps).1.length ≤ steps.length := by
  induction steps with
  | nil => simp [runLoop]
  | cons s rest ih =>
    by_cases hb : outcomeBool s.2 = true
    · simpa [runLoop, hb] using ih
    · simp only [Bool.not_eq_true] at hb
      simp [runLoop, hb]

theorem runLoop_rest_irrelevant (pfx : List Step) (s : Step) (rest rest' : List Step)
    (h : ∀ x ∈ pfx, outcomeBool x.2 = true) (hs : outcomeBool s.2 = false) :
    (runLoop (pfx ++ s :: rest)).1 = (runLoop (pfx ++ s :: rest')).1 := by
  induction pfx with
  | nil => simp [runLoop, hs]
  | cons x pfx ih =>
    have hx : outcomeBool x.2 = true := h x (by simp)
    have htl : ∀ y ∈ pfx, outcomeBool y.2 = true := fun y hy => h y (by simp [hy])
    simp [runLoop, hx, ih htl]

theorem mainSuccess_eq_all (steps : List Step) :
    mainSuccess steps = steps.all (fun s => outcomeBool s.2) := by
  induction steps with
  | nil => rfl
  | cons s rest ih =>
    by_cases hb : outcomeBool s.2 = true
    · have hr : runLoop (s :: rest) =
          ((s.1, true) :: (runLoop rest).1, (runLoop rest).2) := by
        simp [runLoop, hb]
      have hcount : ∀ l : List (String × Bool),
          l.countP (fun x => x.2) ≤ l.length := fun l => List.countP_le_length _
      simp only [mainSuccess, hr, List.countP_cons, List.length_cons, List.all_cons, hb,
        Bool.true_and]
      simp only [mainSuccess] at ih
      simpa using ih
    · simp only [Bool.not_eq_true] at hb
      simp [mainSuccess, runLoop, hb, List.countP, List.countP.go]

/-! ### Claim theorems -/

/-- C1 (counterexample): the spec's gating conjunction for the
injection-safety check is not the code's. On the text `"_filter"` —
which contains `_filter`, contains neither `$eq` nor `operator`, and
contains no `eval(` — `test_sql_injection_protection` passes although the
spec's stated condition (which requires operator-validation evidence) is
false. -/
theorem injection_check_spec_counterexample :
    (test_sql_injection_protection "_filter").passed = true ∧
    injectionSpecPass "_filter" = false ∧
    (containsStr "$eq" "_filter" || containsStr "operator" "_filter") = false := by
  decide

/-- C1 (amended): the injection-safety check passes iff the text contains
`_filter` and does not contain `eval(`; the operator-validation sub-check
is logged but not gating, and any text containing `eval(` fails
regardless of the other conditions. -/
theorem injection_check_gating (content : String) :
    ((test_sql_injection_protection content).passed = true ↔
      (containsStr "_filter" content = true ∧ containsStr "eval(" content = false)) ∧
    (("Query operator validation",
        containsStr "$eq" content || containsStr "operator" content) ∈
      (test_sql_injection_protection content).subChecks) ∧
    (containsStr "eval(" content = true →
      (test_sql_injection_protection content).passed = false) := by
  refine ⟨?_, ?_, ?_⟩
  · simp [test_sql_injection_protection, Bool.and_eq_true, Bool.not_eq_true']
  · simp [test_sql_injection_protection]
  · intro h
    simp [test_sql_injection_protection, h]

/-- C1 witness: a text with `_filter` but also `eval(` fails the check. -/
theorem injection_check_gating_witness :
    (test_sql_injection_protection "_filter eval(x)").passed = false :=
  (injection_check_gating "_filter eval(x)").2.2 (by decide)

/-- C5: the token check passes iff the text contains `verifyJWT`, a
signature comparison (`signature` and `!=`), and an expiration comparison
(`exp` and `Date.now()`); the hardcoded-secret scan is logged as a
sub-check but the verdict is exactly the three-pattern conjunction, so the
secret scan never affects it. -/
theorem jwt_check_gating (content : String) :
    ((test_jwt_security content).passed = true ↔
      (containsStr "verifyJWT" content = true ∧
       (containsStr "signature" content = true ∧ containsStr "!=" content = true) ∧
       (containsStr "exp" content = true ∧ containsStr "Date.now()" content = true))) ∧
    ("No hardcoded secrets", hardcodedSecretCount content == 0) ∈
      (test_jwt_security content).subChecks := by
  constructor
  · simp [test_jwt_security, Bool.and_eq_true, and_assoc]
  · simp [test_jwt_security]

/-- C4: the source-inventory check passes iff every manifest path exists
under the root; the reported missing list is exactly the manifest paths
that do not exist, in manifest order (a sublist of the manifest). -/
theorem inventory_check_contract (fsExists : String → Bool) (manifest : List String) :
    ((validateManifest fsExists manifest).1 = true ↔
      ∀ f ∈ manifest, fsExists f = true) ∧
    (validateManifest fsExists manifest).2.Sublist manifest ∧
    (∀ f, f ∈ (validateManifest fsExists manifest).2 ↔
      (f ∈ manifest ∧ fsExists f = false)) := by
  refine ⟨validateManifest_pass_iff fsExists manifest, List.filter_sublist _, ?_⟩
  intro f
  simp [validateManifest, List.mem_filter]

/-- C10: every path excluded from the CDN bundle is also in the
required-files manifest, so whenever the source-inventory step passes,
each excluded file exists on disk even though it is never copied. -/
theorem excluded_files_in_manifest :
    (∀ p ∈ EXCLUDED_FROM_CDN, p ∈ required_files) ∧
    ∀ fsExists : String → Bool, (validate_source_files fsExists).1 = true →
      ∀ p ∈ EXCLUDED_FROM_CDN, fsExists p = true := by
  constructor
  · decide
  · intro fsExists h p hp
    have hall : ∀ f ∈ required_files, fsExists f = true :=
      (validateManifest_pass_iff fsExists required_files).mp h
    have hsub : ∀ q ∈ EXCLUDED_FROM_CDN, q ∈ required_files := by decide
    exact hall p (hsub p hp)

/-- C10 witness: with a file system where every path exists, the inventory
step passes and the excluded plugin file exists. -/
theorem excluded_files_in_manifest_witness :
    "src/plugins/react.js" ∈ required_files ∧ (fun _ => true) "src/plugins/react.js" = true :=
  ⟨excluded_files_in_manifest.1 "src/plugins/react.js" (by decide),
   excluded_files_in_manifest.2 (fun _ => true) (by decide) "src/plugins/react.js" (by decide)⟩

/-- C2 (counterexample): the bundle assembler does NOT enumerate every file
under the root — it enumerates only `*.js` files. A tree with one `.css`
file (N = 1, matching no exclusion rule, K = 0) yields 0 included files,
not N − K = 1. -/
theorem bundle_enumeration_counterexample :
    ([(⟨"src/style.css", "body"⟩ : SrcFile)]).length = 1 ∧
    isExcluded "src/style.css" = false ∧
    (create_cdn_bundle [⟨"src/style.css", "body"⟩]).included.length ≠ 1 - 0 := by
  decide

/-- C2 (amended): among the enumerated files — the `*.js` files under the
root — with K the number whose path contains an exclusion rule:
`|included| = |enumerated| − K`, `|excluded| = K`, included and excluded
are disjoint, and every enumerated non-excluded file is copied to the
equivalent relative path under the destination root. -/
theorem bundle_classification (files : List SrcFile) :
    (create_cdn_bundle files).included.length =
      (files.filter isJsFile).length -
        (files.filter isJsFile).countP (fun f => isExcluded f.path) ∧
    (create_cdn_bundle files).excluded.length =
      (files.filter isJsFile).countP (fun f => isExcluded f.path) ∧
    (∀ p, p ∈ (create_cdn_bundle files).included →
      p ∉ (create_cdn_bundle files).excluded) ∧
    (∀ f ∈ files, isJsFile f = true → isExcluded f.path = false →
      (distPath f.path, f.content) ∈ (create_cdn_bundle files).copies) := by
  refine ⟨?_, ?_, ?_, ?_⟩
  · have hsplit := List.length_eq_length_filter_add
      (l := files.filter isJsFile) (fun f => isExcluded f.path)
    have hcount := List.countP_eq_length_filter
      (fun f : SrcFile => isExcluded f.path) (files.filter isJsFile)
    simp only [create_cdn_bundle, List.length_map]
    omega
  · simp only [create_cdn_bundle, List.length_map]
    exact (List.countP_eq_length_filter _ _).symm
  · intro p hin hex
    simp only [create_cdn_bundle, List.mem_map, List.mem_filter] at hin hex
    obtain ⟨f, ⟨_, hf⟩, rfl⟩ := hin
    obtain ⟨g, ⟨_, hg⟩, hpath⟩ := hex
    rw [hpath] at hg
    simp only [Bool.not_eq_true'] at hf
    rw [hf] at hg
    exact Bool.false_ne_true hg
  · intro f hmem hjs hexc
    simp only [create_cdn_bundle, List.mem_map]
    refine ⟨f, ?_, rfl⟩
    simp [List.mem_filter, hmem, hjs, hexc]

/-- C2 witness: a concrete tree with one included and one excluded file —
the included file is copied to its `dist` path. -/
theorem bundle_classification_witness :
    ("dist/index.js", "ab") ∈
      (create_cdn_bundle
        [⟨"src/index.js", "ab"⟩, ⟨"src/plugins/vue.js", "x"⟩]).copies :=
  (bundle_classification [⟨"src/index.js", "ab"⟩, ⟨"src/plugins/vue.js", "x"⟩]).2.2.2
    ⟨"src/index.js", "ab"⟩ (by decide) (by decide) (by decide)

/-- C6: `totalBytes` is the exact sum of the byte sizes of the files
actually copied (the enumerated non-excluded files); `overBudget` holds iff
`totalBytes` exceeds the 100 KiB budget; and the bundle step's outcome is
`Pass` unconditionally, so an over-budget total never fails the step. -/
theorem bundle_budget_nonfatal (files : List SrcFile) :
    (create_cdn_bundle files).totalBytes =
      (((files.filter isJsFile).filter (fun f => !isExcluded f.path)).map
        (fun f => f.content.length)).sum ∧
    ((create_cdn_bundle files).overBudget = true ↔
      (create_cdn_bundle files).totalBytes > 100 * 1024) ∧
    (create_cdn_bundle files).outcome = true := by
  refine ⟨?_, ?_, rfl⟩
  · simp only [create_cdn_bundle, List.map_map]
    rfl
  · simp [create_cdn_bundle]

/-- C9: the bundle assembler's results are independent of filesystem
enumeration order — for trees that are permutations of one another, the
included and excluded lists are permutations, and `totalBytes` and
`overBudget` coincide. -/
theorem bundle_order_invariance (files₁ files₂ : List SrcFile)
    (h : files₁.Perm files₂) :
    (create_cdn_bundle files₁).included.Perm (create_cdn_bundle files₂).included ∧
    (create_cdn_bundle files₁).excluded.Perm (create_cdn_bundle files₂).excluded ∧
    (create_cdn_bundle files₁).totalBytes = (create_cdn_bundle files₂).totalBytes ∧
    (create_cdn_bundle files₁).overBudget = (create_cdn_bundle files₂).overBudget := by
  have hjs := h.filter isJsFile
  have hkeep := hjs.filter (fun f => !isExcluded f.path)
  have hdrop := hjs.filter (fun f => isExcluded f.path)
  have htotal :
      (create_cdn_bundle files₁).totalBytes = (create_cdn_bundle files₂).totalBytes := by
    simp only [create_cdn_bundle]
    exact ((hkeep.map (fun f => (distPath f.path, f.content))).map
      (fun c => c.2.length)).sum_eq
  refine ⟨?_, ?_, htotal, ?_⟩
  · exact hkeep.map (fun f => f.path)
  · exact hdrop.map (fun f => f.path)
  · simp only [create_cdn_bundle] at htotal ⊢
    rw [htotal]

/-- C9 witness: swapping two files in the tree leaves `totalBytes`
unchanged. -/
theorem bundle_order_invariance_witness :
    (create_cdn_bundle [⟨"src/a.js", "x"⟩, ⟨"src/b.js", "yy"⟩]).totalBytes =
    (create_cdn_bundle [⟨"src/b.js", "yy"⟩, ⟨"src/a.js", "x"⟩]).totalBytes :=
  (bundle_order_invariance _ _
    (List.Perm.swap ⟨"src/b.js", "yy"⟩ ⟨"src/a.js", "x"⟩ [])).2.2.1

/-- C3: the pipeline runner executes steps in declared order and stops at
the first non-Pass outcome: the recorded results are exactly the passing
prefix (each as `(name, true)`) followed by the first failing step (as
`(name, false)`) when one exists; the result length never exceeds the
number of declared steps; and the steps after the first non-Pass outcome
are never invoked — the results do not depend on them at all. -/
theorem pipeline_prefix_execution (steps : List Step) :
    ((runLoop steps).1 =
      (steps.takeWhile (fun s => outcomeBool s.2)).map (fun s => (s.1, true)) ++
      ((steps.dropWhile (fun s => outcomeBool s.2)).take 1).map (fun s => (s.1, false))) ∧
    (runLoop steps).1.length ≤ steps.length ∧
    (∀ pfx (s : Step) rest rest', (∀ x ∈ pfx, outcomeBool x.2 = true) →
      outcomeBool s.2 = false →
      (runLoop (pfx ++ s :: rest)).1 = (runLoop (pfx ++ s :: rest')).1) :=
  ⟨runLoop_results_characterization steps, runLoop_length_le steps,
   fun pfx s rest rest' h hs => runLoop_rest_irrelevant pfx s rest rest' h hs⟩

/-- C3 witness: with steps `[A:Pass, B:Fail, C:Pass]` the results are
exactly `[A:Pass, B:Fail]`, unchanged if C is replaced by a different
step — C is never invoked. -/
theorem pipeline_prefix_execution_witness :
    (runLoop ([("A", Outcome.ok true)] ++ ("B", Outcome.ok false) ::
        [("C", Outcome.ok true)])).1 =
    (runLoop ([("A", Outcome.ok true)] ++ ("B", Outcome.ok false) ::
        [("D", Outcome.exn "boom")])).1 :=
  (pipeline_prefix_execution []).2.2 [("A", Outcome.ok true)] ("B", Outcome.ok false)
    [("C", Outcome.ok true)] [("D", Outcome.exn "boom")] (by decide) (by decide)

/-- C7: when a step's action raises, the runner records the uniform
non-Pass outcome `false` for that step, appends it after the passing
prefix, and stops immediately: the remaining steps contribute nothing and
the loop reports non-completion. -/
theorem pipeline_exception_abort (pfx rest : List Step) (n msg : String)
    (h : ∀ x ∈ pfx, outcomeBool x.2 = true) :
    runLoop (pfx ++ (n, Outcome.exn msg) :: rest) =
      (pfx.map (fun s => (s.1, true)) ++ [(n, false)], false) := by
  induction pfx with
  | nil => simp [runLoop, outcomeBool]
  | cons x pfx ih =>
    have hx : outcomeBool x.2 = true := h x (by simp)
    have htl : ∀ y ∈ pfx, outcomeBool y.2 = true := fun y hy => h y (by simp [hy])
    simp [runLoop, hx, ih htl]

/-- C7 witness: a pipeline whose second step raises records
`[A:Pass, B:Fail]` and aborts; the third step is dropped. -/
theorem pipeline_exception_abort_witness :
    runLoop ([("A", Outcome.ok true)] ++ ("B", Outcome.exn "boom") ::
        [("C", Outcome.ok true)]) =
      ([("A", true), ("B", false)], false) :=
  pipeline_exception_abort [("A", Outcome.ok true)] [("C", Outcome.ok true)] "B" "boom"
    (by decide)

/-- C8: the process exit code is 0 iff every declared step executed and
returned Pass; any failing or raising step yields exit code 1. -/
theorem exit_code_zero_iff_all_pass (steps : List Step) :
    exitCode steps = 0 ↔ ∀ s ∈ steps, outcomeBool s.2 = true := by
  have hmain : mainSuccess steps = steps.all (fun s => outcomeBool s.2) :=
    mainSuccess_eq_all steps
  constructor
  · intro h
    by_cases hs : mainSuccess steps = true
    · rw [hmain] at hs
      exact fun s hsmem => List.all_eq_true.mp hs s hsmem
    · simp [exitCode, hs] at h
  · intro h
    have : mainSuccess steps = true := by
      rw [hmain]
      exact List.all_eq_true.mpr h
    simp [exitCode, this]

/-! ### Concrete evaluations -/

example : (test_sql_injection_protection "_filter").passed = true := by decide

example : (test_sql_injection_protection "_filter eval(x)").passed = false := by decide

example : injectionSpecPass "_filter" = false := by decide

example : (test_jwt_security "verifyJWT signature != exp Date.now()").passed = true := by
  decide

example : hardcodedSecretCount "const SECRET = \"abc\"" = 1 := by decide

example : hardcodedSecretCount "const x = getSecret()" = 0 := by decide

example :
    validate_source_files (fun _ => true) = (true, []) := by decide

example :
    (validateManifest (fun p => p != "b") ["a", "b", "c"]) = (false, ["b"]) := by decide

example :
    create_cdn_bundle
      [⟨"src/index.js", "ab"⟩, ⟨"src/plugins/vue.js", "xyz"⟩, ⟨"src/a.css", "c"⟩] =
    { included := ["src/index.js"]
      excluded := ["src/plugins/vue.js"]
      copies := [("dist/index.js", "ab")]
      totalBytes := 2
      overBudget := false
      outcome := true } := by decide

example :
    runLoop [("A", .ok true), ("B", .ok false), ("C", .ok true)] =
      ([("A", true), ("B", false)], false) := by decide

example :
    runLoop [("A", .ok true), ("B", .exn "boom"), ("C", .ok true)] =
      ([("A", true), ("B", false)], false) := by decide

example : exitCode [("A", .ok true), ("B", .ok true)] = 0 := by decide

example : exitCode [("A", .ok true), ("B", .exn "boom")] = 1 := by decide
